import Mathlib

/-!
Shallow embedding of the `python-xymon-client` repository
(`src/xymon_client/xymon.py` and `src/xymon_client/helpers.py`).

Each definition mirrors one Python function of the source.  Machine-level
details that the claims do not touch are modelled as follows:

* Python optional / defaulted arguments are `Option` values, `none` meaning
  "argument not passed" (so Python's default-argument value applies) or the
  Python value `None`, as documented on each definition.
* Python `'...%s...' % args` string interpolation is modelled by the
  interpreter `pyFormat` applied to the very format string of the source.
* `time.strftime` and `platform.node` results are passed in as explicit
  string parameters (`ts`, `node`): they are environment inputs.
-/

namespace XymonClient

/-- Truthiness of a Python `str`-or-`None` value: `None` and `''` are falsy,
every other string is truthy. -/
def truthy : Option String → Bool
  | none => false
  | some s => s ≠ ""

/-- Python `str()` rendering of a `str`-or-`None` value as it appears inside
`'%s' % value`: `None` renders as `"None"`. -/
def pyStrOpt : Option String → String
  | none => "None"
  | some s => s

/-- Interpreter for the `%s`-only Python format strings used by the source:
each `%s` of the format consumes the next argument, every other character is
copied verbatim. -/
def pyFormat : List Char → List String → List Char
  | [], _ => []
  | '%' :: 's' :: rest, a :: args => a.data ++ pyFormat rest args
  | '%' :: 's' :: rest, [] => pyFormat rest []
  | c :: rest, args => c :: pyFormat rest args

/-- String-level wrapper of `pyFormat`: `fmt f args` is `f % tuple(args)`. -/
def fmt (f : String) (args : List String) : String :=
  String.mk (pyFormat f.data args)

/-- The state of a `Xymon` client object (`Xymon.__init__` stores
`self.sender` and `self.target = (server, port)`). -/
structure Xymon where
  sender : String
  server : String
  port : Nat
deriving DecidableEq

/-- `Xymon.__init__(self, server='localhost', port=1984, sender=None)`:
`self.sender = sender or platform.node()` and `self.target = (server, port)`.
`port = none` models "argument not passed", in which case Python substitutes
the default value `1984`; a passed value (even `0`) is stored as-is.
`sender = none` models `None`; a falsy sender is replaced by
`platform.node()`, passed here as `node`. -/
def xymonInit (server : String) (port : Option Nat) (sender : Option String)
    (node : String) : Xymon :=
  { sender := if truthy sender then pyStrOpt sender else node
    server := server
    port := port.getD 1984 }

/-- `self.target`, the `(server, port)` tuple stored by `__init__`. -/
def Xymon.target (x : Xymon) : String × Nat :=
  (x.server, x.port)

/-- `Xymon.headline` property:
`'Message generated by %s at %s' % (self.sender, time.strftime('%FT%T'))`,
with the `strftime` result passed in as `ts`. -/
def Xymon.headlineAt (x : Xymon) (ts : String) : String :=
  fmt "Message generated by %s at %s" [x.sender, ts]

/-- `Xymon.status(self, hostname, testname, color, text='', lifetime=None,
group=None)`: builds `data = ['status']`, appends `'+%s' % lifetime` when
`lifetime` is truthy, `'/group:%s' % group` when `group` is truthy, then
`' %s.%s %s %s' % (hostname, testname, color, self.headline)`, then
`'\n%s' % text` when `text` is truthy, and sends `''.join(data)`.
This is the payload handed to `self(...)`. -/
def Xymon.statusPayload (x : Xymon) (ts hostname testname color text : String)
    (lifetime group : Option String) : String :=
  let data : List String := ["status"]
  let data := if truthy lifetime then data ++ [fmt "+%s" [pyStrOpt lifetime]] else data
  let data := if truthy group then data ++ [fmt "/group:%s" [pyStrOpt group]] else data
  let data := data ++ [fmt " %s.%s %s %s" [hostname, testname, color, x.headlineAt ts]]
  let data := if text ≠ "" then data ++ [fmt "\n%s" [text]] else data
  String.join data

/-- `Xymon.enable(self, hostname, testname)` sends `'%s.%s' % (hostname,
testname)`: this is the payload handed to `self(...)`. -/
def Xymon.enablePayload (hostname testname : String) : String :=
  fmt "%s.%s" [hostname, testname]

/-- `Xymon.drop(self, hostname, testname=None)`: sends
`'drop %s' % (hostname,)` when `testname` is truthy and
`'drop %s %s' % (hostname, testname)` otherwise.  `testname = none`
models Python's default `None`. -/
def Xymon.dropPayload (hostname : String) (testname : Option String) : String :=
  if truthy testname then fmt "drop %s" [hostname]
  else fmt "drop %s %s" [hostname, pyStrOpt testname]

/-- The six `Color` constants of `helpers.py`.  A `Color` is a Python
`float` subclass; the module creates `purple = Color('inf')`,
`blue = Color('nan')`, `clear = Color(0)`, `green = Color(1)`,
`yellow = Color(2)`, `red = Color(3)`. -/
inductive Color where
  | purple
  | blue
  | clear
  | green
  | yellow
  | red
deriving DecidableEq

/-- The float value of a finite or infinite `Color` encoded as a rank that
preserves the order of `0 < 1 < 2 < 3 < inf`.  `blue` (`nan`) gets a dummy
rank; every comparison involving it is handled separately in `Color.gt`. -/
def Color.rank : Color → Nat
  | .clear => 0
  | .green => 1
  | .yellow => 2
  | .red => 3
  | .purple => 4
  | .blue => 0

/-- Python float comparison `a > b` on the six color values, following IEEE
754: any comparison involving `nan` (`blue`) is false; `inf` (`purple`)
is greater than every finite value; finite values compare numerically. -/
def Color.gt (a b : Color) : Bool :=
  if a = Color.blue ∨ b = Color.blue then false
  else decide (b.rank < a.rank)

/-- CPython `max(iterable)`: take the first element, then replace the
current maximum by each later item `x` exactly when `x > current`.
Raises `ValueError` on an empty iterable, modelled as `none`. -/
def pyMax : List Color → Option Color
  | [] => none
  | x :: xs => some (xs.foldl (fun m y => if Color.gt y m then y else m) x)

/-- ASCII word character, as matched by `\w` (and delimited by `\b`) of the
regex `r'&(green|yellow|red|clear)\b'`.  (Python's `re` on `str` also
counts non-ASCII word characters; the claims only involve ASCII text.) -/
def isWordChar (c : Char) : Bool :=
  c.isAlphanum || c = '_'

/-- The `\b` of `r'&(green|yellow|red|clear)\b'` after the color word: the
match succeeds iff the remaining text is empty or starts with a non-word
character. -/
def boundaryOk : List Char → Bool
  | [] => true
  | c :: _ => !isWordChar c

/-- Try to read the literal word `w` at the head of `cs`, returning the
remaining characters. -/
def stripWord : List Char → List Char → Option (List Char)
  | [], cs => some cs
  | _ :: _, [] => none
  | w :: ws, c :: cs => if c = w then stripWord ws cs else none

/-- Try one alternative of the regex group at the current position: the
word `w` must be present and followed by a word boundary. -/
def tryColor (w : List Char) (col : Color) (cs : List Char) :
    Option (Color × List Char) :=
  match stripWord w cs with
  | some rest => if boundaryOk rest then some (col, rest) else none
  | none => none

/-- Match `(green|yellow|red|clear)\b` at the current position (just after
a literal `&`), trying the alternatives in the order of the pattern. -/
def matchColor (cs : List Char) : Option (Color × List Char) :=
  match tryColor "green".data Color.green cs with
  | some r => some r
  | none =>
    match tryColor "yellow".data Color.yellow cs with
    | some r => some r
    | none =>
      match tryColor "red".data Color.red cs with
      | some r => some r
      | none => tryColor "clear".data Color.clear cs

/-- Scan for all non-overlapping matches of `&(green|yellow|red|clear)\b`,
left to right, resuming after each match (`re.findall` semantics).  The
`fuel` argument only bounds the recursion; every step consumes at least one
character, so `fuel = length of the text` (as used by `findColors`) never
runs out before the text does. -/
def findColorsAux : Nat → List Char → List Color
  | _, [] => []
  | 0, _ :: _ => []
  | Nat.succ fuel, '&' :: cs =>
    match matchColor cs with
    | some (col, rest) => col :: findColorsAux fuel rest
    | none => findColorsAux fuel cs
  | Nat.succ fuel, _ :: cs => findColorsAux fuel cs

/-- `Helper.r_color.findall(text)`: the list of colors of all inline
markers `&green`, `&yellow`, `&red`, `&clear` (word-boundary matched)
occurring in `text`, in order. -/
def findColors (text : String) : List Color :=
  findColorsAux text.data.length text.data

/-- `Helper.get_colors(self, text, default=None)`: all colors extracted
from `text`; when none is found and `default` is not `None`, the default
is the single result. -/
def get_colors (text : String) (dflt : Option Color) : List Color :=
  let result := findColors text
  if result = [] then
    match dflt with
    | some d => [d]
    | none => []
  else result

/-- The state of a `Helper` object: `self.defaults` (which holds
`'hostname'` and/or `'testname'` exactly when the constructor argument was
truthy) and the message buffer `self.data`. -/
structure Helper where
  dHostname : Option String
  dTestname : Option String
  data : String
deriving DecidableEq

/-- `Helper.__init__(self, xymon, hostname=None, testname=None)`:
`self.defaults` gets a `'hostname'` (resp. `'testname'`) key exactly when
the argument is truthy; `self.data = ''`. -/
def helperInit (hostname testname : Option String) : Helper :=
  { dHostname := if truthy hostname then some (pyStrOpt hostname) else none
    dTestname := if truthy testname then some (pyStrOpt testname) else none
    data := "" }

/-- The keyword arguments a caller may pass to `Helper.status` (they are
forwarded to `Xymon.status`, whose parameters these are); `none` means
"key absent from `kwargs`". -/
structure StatusParams where
  hostname : Option String
  testname : Option String
  color : Option Color
  text : Option String
  lifetime : Option String
  group : Option String
deriving DecidableEq

/-- `kwargs` with no keys set. -/
def StatusParams.empty : StatusParams :=
  ⟨none, none, none, none, none, none⟩

/-- `Helper.status(self, message='', **kwargs)`:
`params = self.defaults.copy(); params.update(kwargs)`;
`params['text'] = '%s%s%s' % (self.data, message, kwargs.get('text', ''))`;
`self.data = ''`; when `'color' not in kwargs`,
`params['color'] = max(self.get_colors(params['text'], clear))`;
finally `self.xymon.status(**params)` is called.  Returns the new helper
state and the parameters of that delegated call. -/
def helperStatus (h : Helper) (message : String) (kw : StatusParams) :
    Helper × StatusParams :=
  let pHostname := match kw.hostname with
    | some v => some v
    | none => h.dHostname
  let pTestname := match kw.testname with
    | some v => some v
    | none => h.dTestname
  let text := fmt "%s%s%s" [h.data, message, kw.text.getD ""]
  let pColor := match kw.color with
    | some c => some c
    | none =>
      match pyMax (get_colors text (some Color.clear)) with
      | some c => some c
      | none => none
  ({ h with data := "" },
   { hostname := pHostname
     testname := pTestname
     color := pColor
     text := some text
     lifetime := kw.lifetime
     group := kw.group })

/-- How `Helper.__getattr__(self, name)` treats an attribute name: the
first matching set wins. -/
inductive AttrKind where
  | hostOnly
  | hostTest
  | hostTestText
  | passthrough
deriving DecidableEq

/-- The dispatch of `Helper.__getattr__`: names in
`{'rename', 'client', 'clientlot', 'modify'}` get `_host` (only the default
hostname merged in); then names in `{'disable', 'enable', 'query', 'drop',
'xymondlog', 'xymondxlog', 'modify'}` get `_host_test` (full defaults);
then `{'notify', 'data'}` get `_host_test_text`; every other name falls
through to `getattr(self.xymon, name)` unmodified. -/
def getattrKind (name : String) : AttrKind :=
  if name = "rename" ∨ name = "client" ∨ name = "clientlot" ∨ name = "modify" then
    AttrKind.hostOnly
  else if name = "disable" ∨ name = "enable" ∨ name = "query" ∨ name = "drop" ∨
      name = "xymondlog" ∨ name = "xymondxlog" ∨ name = "modify" then
    AttrKind.hostTest
  else if name = "notify" ∨ name = "data" then
    AttrKind.hostTestText
  else
    AttrKind.passthrough

/-- Python `str.split(sep, maxsplit)` on a character list: split on the
first `maxs` occurrences of `sep`; the remainder (separators included)
forms the last part.  `acc` holds the reversed characters of the part
being built.  Like Python, always returns at least one part. -/
def pySplitAux (sep : Char) : Nat → List Char → List Char → List (List Char)
  | _, acc, [] => [acc.reverse]
  | 0, acc, rest => [acc.reverse ++ rest]
  | Nat.succ maxs, acc, c :: cs =>
    if c = sep then acc.reverse :: pySplitAux sep maxs [] cs
    else pySplitAux sep (Nat.succ maxs) (c :: acc) cs

/-- `line.split('|', 2)`: at most three parts. -/
def pySplit2 (line : String) : List String :=
  (pySplitAux '|' 2 [] line.data).map String.mk

/-- Helper for `pySplitLines`: `acc` holds the reversed characters of the
current line; a final line is only emitted when non-empty (so text ending
in `'\n'` has no trailing empty line, as with `str.splitlines()`). -/
def pySplitLinesAux : List Char → List Char → List String
  | acc, [] => if acc.isEmpty then [] else [String.mk acc.reverse]
  | acc, '\n' :: cs => String.mk acc.reverse :: pySplitLinesAux [] cs
  | acc, c :: cs => pySplitLinesAux (c :: acc) cs

/-- Python `str.splitlines()` restricted to `'\n'`-separated text (the only
line break the claims involve): every `'\n'` ends a line, no trailing empty
line is produced for text ending in `'\n'`, and the empty string has no
lines. -/
def pySplitLines (s : String) : List String :=
  pySplitLinesAux [] s.data

/-- Decimal value of a non-empty all-digit character list. -/
def parseDigits (cs : List Char) : Option Nat :=
  if cs ≠ [] ∧ cs.all Char.isDigit then
    some (cs.foldl (fun n c => 10 * n + (c.toNat - 48)) 0)
  else none

/-- CPython `int(str)` on decimal literals: surrounding whitespace is
stripped, an optional single sign precedes one or more digits; anything
else raises `ValueError` (`none`).  (Non-decimal acceptances of `int` —
underscore grouping, non-ASCII digits — do not occur in the claims.) -/
def pyInt (s : String) : Option Int :=
  let cs := ((s.data.dropWhile Char.isWhitespace).reverse.dropWhile
    Char.isWhitespace).reverse
  match cs with
  | '+' :: ds => (parseDigits ds).map Int.ofNat
  | '-' :: ds => (parseDigits ds).map (fun n => -(n : Int))
  | ds => (parseDigits ds).map Int.ofNat

/-- The `Ghost` namedtuple: `__new__` stores `hostname` and `address`
verbatim and applies `int` to `timestamp`. -/
structure Ghost where
  hostname : String
  address : String
  timestamp : Int
deriving DecidableEq

/-- One iteration of the `Xymon.ghostlist` loop body on a line:
`Ghost(*line.split('|', 2))` succeeds iff the split yields exactly the
three constructor arguments and `int(timestamp)` parses; any exception
(`TypeError` for a wrong argument count, `ValueError` from `int`) is
caught by the bare `except:`, yielding `none` (the line is only logged). -/
def ghostOfLine (line : String) : Option Ghost :=
  match pySplit2 line with
  | [h, a, t] => (pyInt t).map (fun n => { hostname := h, address := a, timestamp := n })
  | _ => none

/-- The `ghostlist` loop over an already-split line list: append the
parsed record of each line that parses, skip the rest. -/
def ghostsOfLines (lines : List String) : List Ghost :=
  lines.filterMap ghostOfLine

/-- `Xymon.ghostlist(self)` as a function of the raw server reply: iterate
over `reply.splitlines()`, collecting the lines that parse into `Ghost`
records. -/
def ghostlist (reply : String) : List Ghost :=
  ghostsOfLines (pySplitLines reply)

/-- `Xymons._apply(self, name, *args, **kwargs)` as a function of each
child's call outcome.  The i-th entry of `outcomes` is the outcome of
`getattr(children[i], name)(*args, **kwargs)`: `some r` when the call
returns `r`, `none` when it raises (the bare `except:` logs the error and
stores nothing).  The result dict, keyed by the (pairwise distinct) child
objects, is modelled as an association list keyed by child index, in
insertion order. -/
def applySeqAux : Nat → List (Option String) → List (Nat × String)
  | _, [] => []
  | i, some r :: rest => (i, r) :: applySeqAux (i + 1) rest
  | i, none :: rest => applySeqAux (i + 1) rest

/-- See `applySeqAux`: the sequential dispatch over all children. -/
def applySeq (outcomes : List (Option String)) : List (Nat × String) :=
  applySeqAux 0 outcomes

/-- `Xymons._apply_async(self, name, *args, **kwargs)`: all child calls
are first submitted to a thread pool (`tasks`, one task per child, in
children order), then collected with `task.get()`, which re-raises a
failed task's exception inside a logging `try/except` that stores nothing.
The final mapping is a function of the same per-child outcomes. -/
def applyAsync (outcomes : List (Option String)) : List (Nat × String) :=
  let tasks := outcomes.enum
  tasks.foldl
    (fun result t =>
      match t.2 with
      | some r => result ++ [(t.1, r)]
      | none => result)
    []

/-- The error paths of `Xymon.__call__(self, data, blind=False,
timeout=3)`. -/
inductive CallErr where
  | connectFail
  | sendFail
  | recvFail
deriving DecidableEq

/-- Outcome oracle for the socket operations performed by
`Xymon.__call__`: whether `sock.connect` succeeds, whether `sock.sendall`
succeeds, and the chunk sequence delivered by the `sock.recv` loop
(`none` when `recv` raises). -/
structure NetOracle where
  connectOk : Bool
  sendOk : Bool
  recvChunks : Option (List String)
deriving DecidableEq

/-- `Xymon.__call__` as a straight-line model over a `NetOracle`.  The
function creates a socket, connects, sends the transcoded data, then —
unless `blind` — shuts down the write side and reads chunks until
end-of-stream; `sock.close()` is the last statement before `return`.  The
returned pair is (call outcome, whether `sock.close()` was executed
before control left the function).  An exception raised by `connect`,
`sendall` or `recv` propagates immediately, skipping the `close` call
(there is no `try/finally` in the source). -/
def xymonCall (o : NetOracle) (blind : Bool) : Except CallErr String × Bool :=
  if o.connectOk = false then (Except.error CallErr.connectFail, false)
  else if o.sendOk = false then (Except.error CallErr.sendFail, false)
  else if blind then (Except.ok "", true)
  else
    match o.recvChunks with
    | none => (Except.error CallErr.recvFail, false)
    | some chunks => (Except.ok (String.join chunks), true)

end XymonClient

namespace XymonClient

/-- Two strings with the same character list are equal. -/
theorem strext {a b : String} (h : a.data = b.data) : a = b := by
  cases a; cases b; exact congrArg String.mk h

/-- Character list of a concatenation. -/
theorem data_append (a b : String) : (a ++ b).data = a.data ++ b.data := rfl

/-- Character list of `fmt`. -/
theorem data_fmt (f : String) (args : List String) :
    (fmt f args).data = pyFormat f.data args := rfl

/-- `String.join` distributes over `cons`. -/
theorem join_cons (a : String) (l : List String) :
    String.join (a :: l) = a ++ String.join l := by
  have aux : ∀ (l : List String) (x y : String),
      List.foldl (fun r s => r ++ s) (x ++ y) l =
        x ++ List.foldl (fun r s => r ++ s) y l := by
    intro l
    induction l with
    | nil => intro x y; rfl
    | cons c cs ih =>
      intro x y
      simp only [List.foldl_cons]
      rw [String.append_assoc, ih]
  simp only [String.join, List.foldl_cons]
  have h0 : ("" : String) ++ a = a := by
    apply strext; simp [data_append]
  calc List.foldl (fun r s => r ++ s) ("" ++ a) l
      = List.foldl (fun r s => r ++ s) (a ++ "") l := by
        rw [h0]; congr 1; apply strext; simp [data_append]
    _ = a ++ List.foldl (fun r s => r ++ s) "" l := aux l a ""

/-- `String.join` of the empty list. -/
theorem join_nil : String.join ([] : List String) = "" := rfl

/-- String concatenation is associative. -/
theorem sappend_assoc (a b c : String) : a ++ b ++ c = a ++ (b ++ c) := by
  apply strext; simp [data_append]

/-- The empty string is right-neutral. -/
theorem sappend_empty (s : String) : s ++ "" = s := by
  apply strext; simp [data_append]

/-- The empty string is left-neutral. -/
theorem sempty_append (s : String) : "" ++ s = s := by
  apply strext; simp [data_append]

/-- `'+%s' % l` is `'+'` followed by `l`. -/
theorem fmt_plus (l : String) : fmt "+%s" [l] = "+" ++ l := by
  apply strext
  have e : ("+%s" : String).data = ['+', '%', 's'] := rfl
  rw [data_fmt, e]
  simp [pyFormat, data_append]

/-- `'/group:%s' % g` is `'/group:'` followed by `g`. -/
theorem fmt_group (g : String) : fmt "/group:%s" [g] = "/group:" ++ g := by
  apply strext
  have e : ("/group:%s" : String).data = ['/', 'g', 'r', 'o', 'u', 'p', ':', '%', 's'] := rfl
  rw [data_fmt, e]
  simp [pyFormat, data_append]

/-- `' %s.%s %s %s' % (h, t, c, hd)` spelled out. -/
theorem fmt_statusline (h t c hd : String) :
    fmt " %s.%s %s %s" [h, t, c, hd] = " " ++ h ++ "." ++ t ++ " " ++ c ++ " " ++ hd := by
  apply strext
  have e : (" %s.%s %s %s" : String).data =
    [' ', '%', 's', '.', '%', 's', ' ', '%', 's', ' ', '%', 's'] := rfl
  rw [data_fmt, e]
  simp [pyFormat, data_append]

/-- `'\n%s' % s` is a newline followed by `s`. -/
theorem fmt_nl (s : String) : fmt "\n%s" [s] = "\n" ++ s := by
  apply strext
  have e : ("\n%s" : String).data = ['\n', '%', 's'] := rfl
  rw [data_fmt, e]
  simp [pyFormat, data_append]

/-- `'%s.%s' % (h, t)` is `h`, a dot, `t`. -/
theorem fmt_dot (h t : String) : fmt "%s.%s" [h, t] = h ++ "." ++ t := by
  apply strext
  have e : ("%s.%s" : String).data = ['%', 's', '.', '%', 's'] := rfl
  rw [data_fmt, e]
  simp [pyFormat, data_append]

/-- `'%s%s%s' % (a, b, c)` is plain concatenation. -/
theorem fmt_cat3 (a b c : String) : fmt "%s%s%s" [a, b, c] = a ++ b ++ c := by
  apply strext
  have e : ("%s%s%s" : String).data = ['%', 's', '%', 's', '%', 's'] := rfl
  rw [data_fmt, e]
  simp [pyFormat, data_append]

/-- On non-`blue` colors, Python float `>` is the strict rank order. -/
theorem gt_iff_rank {a b : Color} (ha : a ≠ Color.blue) (hb : b ≠ Color.blue) :
    Color.gt a b = true ↔ b.rank < a.rank := by
  simp [Color.gt, ha, hb]

/-- The `max` fold of CPython keeps an element of the list that is of
maximal rank, as long as no `nan` (`blue`) is involved. -/
theorem foldl_max_spec :
    ∀ (xs : List Color) (x : Color), Color.blue ∉ xs → x ≠ Color.blue →
      (xs.foldl (fun m y => if Color.gt y m then y else m) x = x ∨
        xs.foldl (fun m y => if Color.gt y m then y else m) x ∈ xs) ∧
      x.rank ≤ (xs.foldl (fun m y => if Color.gt y m then y else m) x).rank ∧
      ∀ c ∈ xs, c.rank ≤ (xs.foldl (fun m y => if Color.gt y m then y else m) x).rank := by
  intro xs
  induction xs with
  | nil => intro x _ _; simp
  | cons y ys ih =>
    intro x hb hx
    have hy : y ≠ Color.blue := fun h => hb (h ▸ List.mem_cons_self y ys)
    have hbys : Color.blue ∉ ys := fun h => hb (List.mem_cons_of_mem y h)
    have hx' : (if Color.gt y x then y else x) ≠ Color.blue := by
      by_cases hgt : Color.gt y x <;> simp [hgt, hx, hy]
    obtain ⟨hmem, hle, hall⟩ := ih (if Color.gt y x then y else x) hbys hx'
    have hxx : x.rank ≤ (if Color.gt y x then y else x).rank := by
      by_cases hgt : Color.gt y x = true
      · rw [if_pos hgt]
        exact le_of_lt ((gt_iff_rank hy hx).mp hgt)
      · rw [if_neg hgt]
    have hyy : y.rank ≤ (if Color.gt y x then y else x).rank := by
      by_cases hgt : Color.gt y x = true
      · rw [if_pos hgt]
      · rw [if_neg hgt]
        have := (gt_iff_rank hy hx).not.mp (by simpa using hgt)
        omega
    refine ⟨?_, ?_, ?_⟩
    · rcases hmem with hmem | hmem
      · rw [List.foldl_cons, hmem]
        by_cases hgt : Color.gt y x <;> simp [hgt]
      · right
        rw [List.foldl_cons]
        exact List.mem_cons_of_mem y hmem
    · rw [List.foldl_cons]
      exact le_trans hxx hle
    · intro c hc
      rw [List.foldl_cons]
      rcases List.mem_cons.mp hc with hcy | hcys
      · rw [hcy]; exact le_trans hyy hle
      · exact hall c hcys

/-- CPython `max` over a non-empty list of colors without `blue`: the
result is in the list and has maximal rank ("most severe wins"). -/
theorem pyMax_spec (x : Color) (xs : List Color) (hb : Color.blue ∉ x :: xs) :
    ∃ m, pyMax (x :: xs) = some m ∧ m ∈ x :: xs ∧ ∀ c ∈ x :: xs, c.rank ≤ m.rank := by
  have hx : x ≠ Color.blue := fun h => hb (h ▸ List.mem_cons_self x xs)
  have hbxs : Color.blue ∉ xs := fun h => hb (List.mem_cons_of_mem x h)
  obtain ⟨hmem, hle, hall⟩ := foldl_max_spec xs x hbxs hx
  refine ⟨xs.foldl (fun m y => if Color.gt y m then y else m) x, rfl, ?_, ?_⟩
  · rcases hmem with h | h
    · rw [h]; exact List.mem_cons_self x xs
    · exact List.mem_cons_of_mem x h
  · intro c hc
    rcases List.mem_cons.mp hc with h | h
    · exact h ▸ hle
    · exact hall c h

/-- A successful alternative yields the alternative's own color. -/
theorem tryColor_color (w : List Char) (col : Color) (cs : List Char)
    (c : Color) (r : List Char) (h : tryColor w col cs = some (c, r)) : c = col := by
  unfold tryColor at h
  rcases hs : stripWord w cs with _ | rest
  · rw [hs] at h; simp at h
  · rw [hs] at h
    by_cases hbd : boundaryOk rest = true
    · simp [hbd] at h
      exact h.1.symm
    · simp [hbd] at h

/-- The regex group only ever produces the four ordinary severities, never
`blue` (or `purple`). -/
theorem matchColor_ordinary (cs : List Char) (col : Color) (rest : List Char)
    (h : matchColor cs = some (col, rest)) :
    col = Color.green ∨ col = Color.yellow ∨ col = Color.red ∨ col = Color.clear := by
  unfold matchColor at h
  rcases h1 : tryColor "green".data Color.green cs with _ | r1
  · rw [h1] at h
    rcases h2 : tryColor "yellow".data Color.yellow cs with _ | r2
    · rw [h2] at h
      rcases h3 : tryColor "red".data Color.red cs with _ | r3
      · rw [h3] at h
        exact Or.inr (Or.inr (Or.inr (tryColor_color _ _ _ _ _ h)))
      · rw [h3] at h
        obtain ⟨c3, rest3⟩ := r3
        cases h
        exact Or.inr (Or.inr (Or.inl (tryColor_color _ _ _ _ _ h3)))
    · rw [h2] at h
      obtain ⟨c2, rest2⟩ := r2
      cases h
      exact Or.inr (Or.inl (tryColor_color _ _ _ _ _ h2))
  · rw [h1] at h
    obtain ⟨c1, rest1⟩ := r1
    cases h
    exact Or.inl (tryColor_color _ _ _ _ _ h1)

/-- The marker scan never reports `blue`. -/
theorem findColorsAux_no_blue : ∀ (fuel : Nat) (cs : List Char),
    Color.blue ∉ findColorsAux fuel cs := by
  intro fuel
  induction fuel with
  | zero => intro cs; cases cs <;> simp [findColorsAux]
  | succ n ih =>
    intro cs
    cases cs with
    | nil => simp [findColorsAux]
    | cons c rest =>
      by_cases hc : c = '&'
      · subst hc
        rcases hm : matchColor rest with _ | pr
        · simpa [findColorsAux, hm] using ih rest
        · obtain ⟨col, rest2⟩ := pr
          have hcol : col ≠ Color.blue := by
            rcases matchColor_ordinary rest col rest2 hm with h | h | h | h <;> simp [h]
          simp only [findColorsAux, hm]
          intro hmem
          rcases List.mem_cons.mp hmem with h | h
          · exact hcol h.symm
          · exact ih rest2 h
      · simpa [findColorsAux, hc] using ih rest

/-- The marker list of a text never contains `blue`. -/
theorem findColors_no_blue (text : String) : Color.blue ∉ findColors text :=
  findColorsAux_no_blue text.data.length text.data

/-- Membership in the sequential dispatch result: `(j, r)` is present
exactly when the child at offset `j - i` succeeded with result `r`. -/
theorem applySeqAux_mem : ∀ (l : List (Option String)) (i j : Nat) (r : String),
    (j, r) ∈ applySeqAux i l ↔ ∃ k, j = i + k ∧ l.get? k = some (some r) := by
  intro l
  induction l with
  | nil =>
    intro i j r
    simp [applySeqAux]
  | cons o rest ih =>
    intro i j r
    cases o with
    | some a =>
      simp only [applySeqAux, List.mem_cons, ih, Prod.mk.injEq]
      constructor
      · rintro (⟨hj, hr⟩ | ⟨k, hk, hg⟩)
        · exact ⟨0, by omega, by simp [hr]⟩
        · exact ⟨k + 1, by omega, by simpa using hg⟩
      · rintro ⟨k, hk, hg⟩
        cases k with
        | zero =>
          left
          simp at hg
          exact ⟨by omega, hg.symm⟩
        | succ k =>
          right
          exact ⟨k, by omega, by simpa using hg⟩
    | none =>
      simp only [applySeqAux, ih]
      constructor
      · rintro ⟨k, hk, hg⟩
        exact ⟨k + 1, by omega, by simpa using hg⟩
      · rintro ⟨k, hk, hg⟩
        cases k with
        | zero => simp at hg
        | succ k => exact ⟨k, by omega, by simpa using hg⟩

/-- The dispatch result has one entry per successful child. -/
theorem applySeqAux_length : ∀ (l : List (Option String)) (i : Nat),
    (applySeqAux i l).length = (l.filter Option.isSome).length := by
  intro l
  induction l with
  | nil => intro i; simp [applySeqAux]
  | cons o rest ih =>
    intro i
    cases o with
    | some a => simp [applySeqAux, List.filter, ih]
    | none => simp [applySeqAux, List.filter, ih]

/-- Collecting the thread-pool tasks in children order produces the same
association list as the sequential loop. -/
theorem applyAsync_foldl : ∀ (l : List (Option String)) (i : Nat)
    (acc : List (Nat × String)),
    (List.enumFrom i l).foldl
        (fun result t =>
          match t.2 with
          | some r => result ++ [(t.1, r)]
          | none => result)
        acc = acc ++ applySeqAux i l := by
  intro l
  induction l with
  | nil => intro i acc; simp [applySeqAux]
  | cons o rest ih =>
    intro i acc
    cases o with
    | some a => simp [List.enumFrom, applySeqAux, ih]
    | none => simp [List.enumFrom, applySeqAux, ih]

/-- Sequential and thread-pool dispatch build the same final mapping. -/
theorem applySeq_eq_applyAsync (outcomes : List (Option String)) :
    applySeq outcomes = applyAsync outcomes := by
  unfold applySeq applyAsync
  rw [show outcomes.enum = List.enumFrom 0 outcomes from rfl, applyAsync_foldl]
  simp

/-- A line that fails to parse is skipped without affecting the records of
the other lines. -/
theorem ghostsOfLines_skip (lines1 lines2 : List String) (bad : String)
    (hbad : ghostOfLine bad = none) :
    ghostsOfLines (lines1 ++ bad :: lines2) =
      ghostsOfLines lines1 ++ ghostsOfLines lines2 := by
  simp [ghostsOfLines, List.filterMap_append, List.filterMap_cons, hbad]

/-- A parsed ghost record comes from a line whose 2-bounded split has
exactly three parts, the third being its integer timestamp. -/
theorem ghostOfLine_split (line : String) (g : Ghost)
    (h : ghostOfLine line = some g) :
    ∃ t, pySplit2 line = [g.hostname, g.address, t] ∧ pyInt t = some g.timestamp := by
  unfold ghostOfLine at h
  rcases hs : pySplit2 line with _ | ⟨a, _ | ⟨b, _ | ⟨c, _ | _⟩⟩⟩ <;> rw [hs] at h <;>
    simp at h
  rcases hi : pyInt c with _ | n <;> rw [hi] at h <;> simp at h
  subst h
  refine ⟨c, ?_, ?_⟩
  · simp [hs]
  · simp [hi]

/-- `max(self.get_colors(text, clear))`: `clear` when the text has no
marker, otherwise a marker of the text of maximal rank. -/
theorem helper_color_of_text (text : String) :
    (findColors text = [] →
      pyMax (get_colors text (some Color.clear)) = some Color.clear) ∧
    ∀ y ys, findColors text = y :: ys →
      ∃ m, pyMax (get_colors text (some Color.clear)) = some m ∧ m ∈ y :: ys ∧
        ∀ c ∈ y :: ys, c.rank ≤ m.rank := by
  constructor
  · intro hm
    simp [get_colors, hm, pyMax]
  · intro y ys hm
    have hb : Color.blue ∉ y :: ys := hm ▸ findColors_no_blue text
    obtain ⟨m, hm1, hm2, hm3⟩ := pyMax_spec y ys hb
    refine ⟨m, ?_, hm2, hm3⟩
    simpa [get_colors, hm] using hm1

/-- Regrouping of the leading literals of a `status` line without optional
tokens. -/
theorem status_space_append (X : String) :
    ("status" : String) ++ (" " ++ X) = "status " ++ X := by
  apply strext; simp [data_append]

/-- Length of a concatenation of strings. -/
theorem slength_append (a b : String) : (a ++ b).length = a.length + b.length := by
  show (a.data ++ b.data).length = a.data.length + b.data.length
  exact List.length_append a.data b.data

end XymonClient

namespace XymonClient

/-- Claim C1, counterexample: with three configured targets whose calls
come out as success, failure, success, both `_apply` and `_apply_async`
return a mapping with only two entries — the failing target gets no
recorded entry, so the mapping does not have one entry per configured
target. -/
theorem c1_dispatch_counterexample :
    applySeq [some "pong", none, some "pong"] = [(0, "pong"), (2, "pong")] ∧
    applyAsync [some "pong", none, some "pong"] = [(0, "pong"), (2, "pong")] ∧
    (applySeq [some "pong", none, some "pong"]).length ≠ 3 ∧
    (applySeq [some "pong", none, some "pong"]).all (fun p => p.1 != 1) = true :=
  ⟨rfl, rfl, by decide, rfl⟩

/-- Claim C1 (amended): in both sequential and concurrent mode the final
mapping is identical and contains exactly one entry per target whose call
succeeds, keyed by that target with its decoded result; a target whose
call raises is logged and omitted from the mapping, and its failure does
not prevent collection of the other targets' results (an entry for target
`j` is present iff target `j` itself succeeded, whatever the others did). -/
theorem c1_dispatch_amended (outcomes : List (Option String)) :
    applySeq outcomes = applyAsync outcomes ∧
    (applySeq outcomes).length = (outcomes.filter Option.isSome).length ∧
    ∀ j r, ((j, r) ∈ applySeq outcomes ↔ outcomes.get? j = some (some r)) := by
  refine ⟨applySeq_eq_applyAsync outcomes, applySeqAux_length outcomes 0, fun j r => ?_⟩
  unfold applySeq
  rw [applySeqAux_mem]
  constructor
  · rintro ⟨k, hk, hg⟩
    have hkj : k = j := by omega
    rwa [hkj] at hg
  · intro hg
    exact ⟨j, by omega, hg⟩

/-- Claim C2: `drop` with a truthy `testname` sends the single-argument
payload `drop <hostname>`, and with a falsy `testname` the two-argument
payload `drop <hostname> None` — the conditional is inverted with respect
to the documented intent, so this theorem records the code's behaviour at
the failing input. -/
theorem c2_drop_observed :
    Xymon.dropPayload "h" (some "t") = "drop h" ∧
    Xymon.dropPayload "h" none = "drop h None" ∧
    Xymon.dropPayload "h" (some "t") ≠ "drop h t" :=
  ⟨rfl, rfl, by decide⟩

/-- Claim C3, counterexample: the `status` encoder joins its pieces with
the empty separator, so `+lifetime` and `/group:group` are NOT preceded by
a space: the encoded line is `status+5/group:g ...`, not
`status +5 /group:g ...` as the claim states. -/
theorem c3_status_counterexample :
    Xymon.statusPayload (xymonInit "srv" none (some "s") "node") "T" "h" "t" "red"
        "boom" (some "5") (some "g") =
      "status+5/group:g h.t red Message generated by s at T\nboom" ∧
    Xymon.statusPayload (xymonInit "srv" none (some "s") "node") "T" "h" "t" "red"
        "boom" (some "5") (some "g") ≠
      "status +5 /group:g h.t red Message generated by s at T\nboom" :=
  ⟨rfl, by decide⟩

/-- Claim C3 (amended): the encoded line is
`status[+lifetime][/group:group] host.test color headline[\ntext]` — the
optional `+lifetime` and `/group:group` tokens are appended directly after
`status` with no space, the headline is always present (even for empty
text), and a truthy text is appended after a newline. -/
theorem c3_status_amended (x : Xymon) (ts hostname testname color text : String)
    (lifetime group : Option String) :
    x.statusPayload ts hostname testname color text lifetime group =
      "status" ++ (if truthy lifetime then "+" ++ pyStrOpt lifetime else "") ++
        (if truthy group then "/group:" ++ pyStrOpt group else "") ++
        " " ++ hostname ++ "." ++ testname ++ " " ++ color ++ " " ++ x.headlineAt ts ++
        (if text ≠ "" then "\n" ++ text else "") := by
  unfold Xymon.statusPayload
  cases h1 : truthy lifetime <;> cases h2 : truthy group <;> by_cases h3 : text = "" <;>
    simp [h1, h2, h3, join_cons, join_nil, fmt_plus, fmt_group, fmt_statusline, fmt_nl,
      sappend_assoc, sappend_empty, sempty_append, status_space_append]

/-- Claim C4, counterexample: `blue` is `Color('nan')` and every float
comparison against `nan` is false, so `max` over a list containing `blue`
depends on the order of the elements: `[blue, red]` gives `blue` while
`[red, blue]` gives `red`.  Hence `max` does not return "the most severe
element" once the sentinel `blue` is in the list. -/
theorem c4_severity_counterexample :
    pyMax [Color.blue, Color.red] = some Color.blue ∧
    pyMax [Color.red, Color.blue] = some Color.red ∧
    Color.blue ≠ Color.red ∧
    Color.gt Color.blue Color.red = false ∧
    Color.gt Color.red Color.blue = false := by decide

/-- Claim C4 (amended): the strict order `clear < green < yellow < red`
holds, `purple` compares greater than each of the four ordinary
severities, and for every non-empty list of severities that does not
contain `blue` (the four ordinary ones plus optionally `purple`),
`max` returns an element of the list of maximal severity
("most severe wins"). -/
theorem c4_severity_amended :
    (Color.gt Color.green Color.clear = true ∧ Color.gt Color.yellow Color.green = true ∧
      Color.gt Color.red Color.yellow = true) ∧
    (Color.gt Color.purple Color.clear = true ∧ Color.gt Color.purple Color.green = true ∧
      Color.gt Color.purple Color.yellow = true ∧ Color.gt Color.purple Color.red = true) ∧
    ∀ (x : Color) (xs : List Color), Color.blue ∉ x :: xs →
      ∃ m, pyMax (x :: xs) = some m ∧ m ∈ x :: xs ∧ ∀ c ∈ x :: xs, c.rank ≤ m.rank :=
  ⟨by decide, by decide, pyMax_spec⟩

/-- Claim C4, witness: the amended theorem applied to the concrete list
`[red, clear, purple]`. -/
theorem c4_severity_witness :
    ∃ m, pyMax [Color.red, Color.clear, Color.purple] = some m ∧
      m ∈ [Color.red, Color.clear, Color.purple] ∧
      ∀ c ∈ [Color.red, Color.clear, Color.purple], c.rank ≤ m.rank :=
  c4_severity_amended.2.2 Color.red [Color.clear, Color.purple] (by decide)

/-- Claim C5: a reply line parses iff its 2-bounded split on `|` yields
exactly three parts with an integer third part; a line that fails to parse
is skipped without aborting, leaving exactly the successfully parsed
records in order; and the reply
`host1|10.0.0.1|1700000000\nBADLINE\nhost2|10.0.0.2|1700000100` yields
exactly the records for `host1` and `host2`. -/
theorem c5_ghostlist_parse (lines1 lines2 : List String) (bad : String)
    (hbad : ghostOfLine bad = none) :
    ghostsOfLines (lines1 ++ bad :: lines2) =
      ghostsOfLines lines1 ++ ghostsOfLines lines2 ∧
    (∀ line g, ghostOfLine line = some g →
      ∃ t, pySplit2 line = [g.hostname, g.address, t] ∧ pyInt t = some g.timestamp) ∧
    ghostlist "host1|10.0.0.1|1700000000\nBADLINE\nhost2|10.0.0.2|1700000100" =
      [{ hostname := "host1", address := "10.0.0.1", timestamp := 1700000000 },
       { hostname := "host2", address := "10.0.0.2", timestamp := 1700000100 }] :=
  ⟨ghostsOfLines_skip lines1 lines2 bad hbad, ghostOfLine_split, by decide⟩

/-- Claim C5, witness: the theorem applied to the example reply's lines,
with `BADLINE` as the skipped line. -/
theorem c5_ghostlist_witness :
    ghostsOfLines (["host1|10.0.0.1|1700000000"] ++ "BADLINE" ::
        ["host2|10.0.0.2|1700000100"]) =
      ghostsOfLines ["host1|10.0.0.1|1700000000"] ++
        ghostsOfLines ["host2|10.0.0.2|1700000100"] :=
  (c5_ghostlist_parse ["host1|10.0.0.1|1700000000"] ["host2|10.0.0.2|1700000100"]
    "BADLINE" (by decide)).1

/-- Claim C6, counterexample: `__call__` has no `try/finally`; when
`connect`, `sendall` or the `recv` loop raises, control leaves the
function without executing `sock.close()` — the connection is not closed
on any of the three error paths. -/
theorem c6_close_counterexample :
    (xymonCall { connectOk := false, sendOk := true, recvChunks := some [] } false).2
      = false ∧
    (xymonCall { connectOk := true, sendOk := false, recvChunks := some [] } false).2
      = false ∧
    (xymonCall { connectOk := true, sendOk := true, recvChunks := none } false).2
      = false := by decide

/-- Claim C6 (amended): `sock.close()` runs before return exactly on the
non-raising paths — the socket is closed iff the call returns normally
(blind or with a fully read reply); on every error path the exception
propagates without the function closing the socket. -/
theorem c6_close_amended (o : NetOracle) (blind : Bool) :
    (xymonCall o blind).2 = true ↔ ∃ s, (xymonCall o blind).1 = Except.ok s := by
  unfold xymonCall
  rcases o with ⟨c, s, r⟩
  cases c <;> cases s <;> cases blind <;> rcases r with _ | chunks <;> simp

/-- Claim C7: `Helper.status` sends as text the concatenation of the
buffered text, the message and the overriding text, resets the buffer,
merges the default hostname/testname under the overrides, passes
lifetime/group through, and — when no color override is given — uses the
most severe inline marker of the composed text, defaulting to `clear`
when no marker is present. -/
theorem c7_helper_status (h : Helper) (message : String) (kw : StatusParams) :
    (helperStatus h message kw).1 = { h with data := "" } ∧
    (helperStatus h message kw).2.text = some (h.data ++ message ++ kw.text.getD "") ∧
    (helperStatus h message kw).2.hostname =
      (match kw.hostname with | some v => some v | none => h.dHostname) ∧
    (helperStatus h message kw).2.testname =
      (match kw.testname with | some v => some v | none => h.dTestname) ∧
    (helperStatus h message kw).2.lifetime = kw.lifetime ∧
    (helperStatus h message kw).2.group = kw.group ∧
    (∀ c, kw.color = some c → (helperStatus h message kw).2.color = some c) ∧
    (kw.color = none →
      (findColors (h.data ++ message ++ kw.text.getD "") = [] →
        (helperStatus h message kw).2.color = some Color.clear) ∧
      ∀ y ys, findColors (h.data ++ message ++ kw.text.getD "") = y :: ys →
        ∃ m, (helperStatus h message kw).2.color = some m ∧ m ∈ y :: ys ∧
          ∀ c ∈ y :: ys, c.rank ≤ m.rank) := by
  have htext : fmt "%s%s%s" [h.data, message, kw.text.getD ""] =
      h.data ++ message ++ kw.text.getD "" := fmt_cat3 _ _ _
  refine ⟨rfl, ?_, rfl, rfl, rfl, rfl, ?_, ?_⟩
  · simp [helperStatus, htext]
  · intro c hc
    simp [helperStatus, hc]
  · intro hc
    constructor
    · intro hm
      have hp := (helper_color_of_text (h.data ++ message ++ kw.text.getD "")).1 hm
      simp [helperStatus, hc, htext, hp]
    · intro y ys hm
      obtain ⟨m, h1, h2, h3⟩ :=
        (helper_color_of_text (h.data ++ message ++ kw.text.getD "")).2 y ys hm
      refine ⟨m, ?_, h2, h3⟩
      simp [helperStatus, hc, htext, h1]

/-- Claim C7, witness: a helper with a buffered `&red` marker and no color
override composes the text, clears the buffer and picks `red`. -/
theorem c7_helper_status_witness :
    (helperStatus { dHostname := some "www", dTestname := some "http", data := "&red bad " }
        "more" StatusParams.empty).2.color = some Color.red ∧
    (helperStatus { dHostname := some "www", dTestname := some "http", data := "&red bad " }
        "more" StatusParams.empty).2.text = some "&red bad more" := by
  have hmarks : findColors ("&red bad " ++ "more" ++ "") = [Color.red] := by decide
  have happ :
      (helperStatus { dHostname := some "www", dTestname := some "http", data := "&red bad " }
        "more" StatusParams.empty).2.color = some Color.red := by
    obtain ⟨m, h1, h2, h3⟩ :=
      ((c7_helper_status
        { dHostname := some "www", dTestname := some "http", data := "&red bad " }
        "more" StatusParams.empty).2.2.2.2.2.2.2 rfl).2 Color.red [] hmarks
    have hm : m = Color.red := by simpa using h2
    rwa [hm] at h1
  refine ⟨happ, ?_⟩
  have := (c7_helper_status
    { dHostname := some "www", dTestname := some "http", data := "&red bad " }
    "more" StatusParams.empty).2.1
  simpa using this

/-- Claim C8, counterexample: a port argument of `0` is stored as `0`, not
replaced by the default `1984` — only an unset port argument gets the
default. -/
theorem c8_port_counterexample :
    (xymonInit "xymon.example.net" (some 0) none "node").target =
      ("xymon.example.net", 0) ∧
    (xymonInit "xymon.example.net" (some 0) none "node").target ≠
      ("xymon.example.net", 1984) :=
  ⟨rfl, by decide⟩

/-- Claim C8 (amended): the target's port equals `1984` exactly when the
port argument is unset; a supplied port — including `0` — is stored
as-is, and the `(server, port)` tuple is the one fixed at construction. -/
theorem c8_port_amended (server : String) (sender : Option String) (node : String) :
    (xymonInit server none sender node).target = (server, 1984) ∧
    ∀ p, (xymonInit server (some p) sender node).target = (server, p) :=
  ⟨rfl, fun _ => rfl⟩

/-- Claim C9: the host-scoped set of `Helper.__getattr__` contains the
misspelling `clientlot`, so the attribute `clientlog` is NOT in it and
falls through to the plain passthrough (no hostname merged in), while
`rename`, `client` and `modify` do get the host-scoped treatment. -/
theorem c9_clientlog_observed :
    getattrKind "clientlog" = AttrKind.passthrough ∧
    getattrKind "clientlot" = AttrKind.hostOnly ∧
    getattrKind "rename" = AttrKind.hostOnly ∧
    getattrKind "client" = AttrKind.hostOnly ∧
    getattrKind "modify" = AttrKind.hostOnly := by decide

/-- Claim C10: `enable` transmits solely `<hostname>.<testname>` — the
payload never carries an `enable` command verb (the two strings differ in
length by the 7 characters of `'enable '`). -/
theorem c10_enable_payload (hostname testname : String) :
    Xymon.enablePayload hostname testname = hostname ++ "." ++ testname ∧
    Xymon.enablePayload hostname testname ≠
      "enable " ++ hostname ++ "." ++ testname := by
  have he : Xymon.enablePayload hostname testname = hostname ++ "." ++ testname :=
    fmt_dot hostname testname
  refine ⟨he, ?_⟩
  intro hcontra
  rw [he] at hcontra
  have hl := congrArg String.length hcontra
  simp only [slength_append] at hl
  have h1 : ("enable " : String).length = 7 := rfl
  have h2 : ("." : String).length = 1 := rfl
  rw [h1, h2] at hl
  omega

end XymonClient
